import Mathlib

/-!
Verification of the LostKey dead-man's-switch contract
(repository MyWishPlatform/tron-lost-key-token).

The repository ships the tests (`template/test/LostKeyMain.test.js`) and the
tronbox configuration; the Solidity contract itself is not part of the
available sources, so the contract's state machine is modelled from the
specification, keeping the names the tests use (`targetUser`, `percents`,
`noActivityPeriod`, `lastActiveTs`, `addTokenAddress`, `addTokenAddresses`,
`imAvailable`, `check`, `kill`, and the events `TokenAdded`, `Notified`,
`Triggered`, `TokensSent`, `Killed`).
-/

namespace LostKey

/-- Account and contract addresses, abstracted as natural numbers. -/
abbrev Address := Nat

/-- Modelled from the spec: the lifecycle of the switch — `Active`, or one of
the two terminal states `Killed` (voluntary cancel) and `Distributed`
(trigger fired). -/
inductive Lifecycle
  | Active
  | Killed
  | Distributed
deriving DecidableEq, Repr

/-- Modelled from the spec: one heir entry — recipient address and its
percentage share, fixed at construction. -/
structure RecipientPercent where
  recipient : Address
  percent : Nat
deriving DecidableEq, Repr

/-- Modelled from the spec: the full state of a switch instance.
`targetUser`, `percents` and `noActivityPeriod` are the immutable
configuration; `lastActiveTs`, `tokenAddresses` and `lifecycle` are the
mutable state. -/
structure LostKeyState where
  targetUser : Address
  percents : List RecipientPercent
  noActivityPeriod : Nat
  lastActiveTs : Nat
  tokenAddresses : List Address
  lifecycle : Lifecycle
deriving DecidableEq, Repr

/-- Modelled from the spec: the notifications the contract emits, named as in
the tests (`TokenAdded`, `Notified`, `Triggered`, `TokensSent`, `Killed`). -/
inductive Event
  | TokenAdded (token : Address)
  | Notified
  | Triggered
  | TokensSent (token : Address) (recipient : Address) (percent : Nat) (amount : Nat)
  | Killed (byUser : Bool)
deriving DecidableEq, Repr

/-- Modelled from the spec: the error taxonomy of §7. -/
inductive Err
  | Unauthorized
  | InvalidState
  | RejectedValueTransfer
deriving DecidableEq, Repr

/-- Modelled from the spec: one `transferFrom` call issued against an asset
contract, pulling `amount` units of `token` from the target user to
`recipient`. The core never custodies funds, so these external calls are the
whole observable effect of the distribution. -/
structure Transfer where
  token : Address
  recipient : Address
  amount : Nat
deriving DecidableEq, Repr

/-- Modelled from the spec: `register(configuration)` — a fresh instance is
`Active`, `lastActiveTs` is the creation time, the watched-asset set is
empty. -/
def register (targetUser : Address) (heirs : List RecipientPercent)
    (noActivityPeriod : Nat) (creationTime : Nat) : LostKeyState :=
  { targetUser := targetUser
    percents := heirs
    noActivityPeriod := noActivityPeriod
    lastActiveTs := creationTime
    tokenAddresses := []
    lifecycle := .Active }

/-- Modelled from the spec: `addAsset` (`addTokenAddress` in the tests) —
only the target user, only while `Active`; appends the address and emits one
`TokenAdded`. The caller check comes first, as in the usual ordering of the
`onlyTarget` guard before the lifecycle guard. -/
def addTokenAddress (s : LostKeyState) (caller token : Address) :
    Except Err (LostKeyState × List Event) :=
  if caller ≠ s.targetUser then .error .Unauthorized
  else if s.lifecycle ≠ .Active then .error .InvalidState
  else .ok ({ s with tokenAddresses := s.tokenAddresses ++ [token] },
            [.TokenAdded token])

/-- Modelled from the spec: `addAssets` (`addTokenAddresses` in the tests) —
appends each address in input order and emits one `TokenAdded` per address,
in input order. -/
def addTokenAddresses (s : LostKeyState) (caller : Address)
    (tokens : List Address) : Except Err (LostKeyState × List Event) :=
  if caller ≠ s.targetUser then .error .Unauthorized
  else if s.lifecycle ≠ .Active then .error .InvalidState
  else .ok ({ s with tokenAddresses := s.tokenAddresses ++ tokens },
            tokens.map .TokenAdded)

/-- Modelled from the spec: `ping` (`imAvailable` in the tests) — only the
target user, only while `Active`; sets `lastActiveTs` to the current time and
emits a `Notified` liveness acknowledgement. -/
def imAvailable (s : LostKeyState) (caller : Address) (currentTime : Nat) :
    Except Err (LostKeyState × List Event) :=
  if caller ≠ s.targetUser then .error .Unauthorized
  else if s.lifecycle ≠ .Active then .error .InvalidState
  else .ok ({ s with lastActiveTs := currentTime }, [.Notified])

/-- Modelled from the spec: `kill` — only the target user, only while
`Active`; transitions to `Killed` and emits `Killed(byUser = true)`. -/
def kill (s : LostKeyState) (caller : Address) :
    Except Err (LostKeyState × List Event) :=
  if caller ≠ s.targetUser then .error .Unauthorized
  else if s.lifecycle ≠ .Active then .error .InvalidState
  else .ok ({ s with lifecycle := .Killed }, [.Killed true])

/-- Modelled from the spec: the payout for one heir — `allowance * percent /
100` with integer division, the fractional remainder truncated and not
redistributed. -/
def payout (allowance percent : Nat) : Nat :=
  allowance * percent / 100

/-- Modelled from the spec: the `TokensSent` notifications of the
distribution algorithm — outer loop over watched assets in registration
order, inner loop over heirs in configuration order, each carrying asset,
recipient, percent and amount. `alw` is the allowance observed at trigger
time for each asset. -/
def distributionEvents (s : LostKeyState) (alw : Address → Nat) : List Event :=
  (s.tokenAddresses.map (fun t =>
    s.percents.map (fun h =>
      Event.TokensSent t h.recipient h.percent (payout (alw t) h.percent)))).flatten

/-- Modelled from the spec: the `transferFrom` calls issued by the
distribution algorithm, in the same nested order as the notifications. -/
def distributionTransfers (s : LostKeyState) (alw : Address → Nat) :
    List Transfer :=
  (s.tokenAddresses.map (fun t =>
    s.percents.map (fun h =>
      Transfer.mk t h.recipient (payout (alw t) h.percent)))).flatten

/-- Modelled from the spec: `check` — callable by anyone while `Active`.
Before the inactivity period has elapsed it succeeds as a no-op; once
`currentTime - lastActiveTs ≥ noActivityPeriod` it emits `Triggered`, runs
the distribution and transitions to `Distributed`. In a terminal lifecycle
it fails with `InvalidState`. -/
def check (s : LostKeyState) (alw : Address → Nat) (currentTime : Nat) :
    Except Err (LostKeyState × List Event × List Transfer) :=
  if s.lifecycle ≠ .Active then .error .InvalidState
  else if currentTime - s.lastActiveTs < s.noActivityPeriod then .ok (s, [], [])
  else .ok ({ s with lifecycle := .Distributed },
            .Triggered :: distributionEvents s alw,
            distributionTransfers s alw)

/-- Modelled from the spec: the fallback — any unsolicited direct value
transfer is rejected unconditionally, whoever the sender and whatever the
amount. -/
def fallbackTransfer (_s : LostKeyState) (_sender : Address) (_amount : Nat) :
    Except Err (LostKeyState × List Event) :=
  .error .RejectedValueTransfer

/-- Modelled from the spec: the "single-item variant once per element in
sequence" — folding `addTokenAddress` over a list, concatenating the emitted
notifications, stopping at the first failure. -/
def addTokenAddressesOneByOne (caller : Address) :
    LostKeyState → List Address → Except Err (LostKeyState × List Event)
  | s, [] => .ok (s, [])
  | s, token :: rest =>
    match addTokenAddress s caller token with
    | .error e => .error e
    | .ok (s1, ev1) =>
      match addTokenAddressesOneByOne caller s1 rest with
      | .error e => .error e
      | .ok (s2, ev2) => .ok (s2, ev1 ++ ev2)

/-- The specification's literal example configuration: target user `1`,
heirs `(11, 30)` and `(12, 70)`, inactivity period `1000`, created at
time `0`. -/
def exState : LostKeyState :=
  register 1 [⟨11, 30⟩, ⟨12, 70⟩] 1000 0

/-- The example instance with two watched assets `21` and `22`. -/
def exWatched : LostKeyState :=
  { exState with tokenAddresses := [21, 22] }

/-- An allowance observation granting `1000` units of every asset. -/
def exAlw : Address → Nat := fun _ => 1000

/-- An allowance observation granting `0` units of every asset. -/
def exAlwZero : Address → Nat := fun _ => 0

/-- The example instance after a voluntary kill. -/
def exKilled : LostKeyState :=
  { exState with lifecycle := Lifecycle.Killed }

/-- The example instance after a successful trigger. -/
def exDistributed : LostKeyState :=
  { exWatched with lifecycle := Lifecycle.Distributed }

/-- Length of the nested distribution loop: one inner entry per heir, one
inner list per watched asset. -/
lemma length_flatten_map_map {α β γ : Type} (ts : List α) (hs : List β)
    (f : α → β → γ) :
    ((ts.map (fun t => hs.map (f t))).flatten).length =
      ts.length * hs.length := by
  induction ts with
  | nil => simp
  | cons t ts ih =>
    simp only [List.map_cons, List.flatten_cons, List.length_append,
      List.length_map, List.length_cons, ih]
    ring

/-- Element `i * |hs| + j` of the nested loop output is the body evaluated at
the `i`-th outer and `j`-th inner element. -/
lemma getElem?_flatten_map_map {α β γ : Type} (ts : List α) (hs : List β)
    (f : α → β → γ) (i j : Nat) (hi : i < ts.length) (hj : j < hs.length) :
    ((ts.map (fun t => hs.map (f t))).flatten)[i * hs.length + j]? =
      some (f ts[i] hs[j]) := by
  induction ts generalizing i with
  | nil => simp at hi
  | cons t ts ih =>
    cases i with
    | zero =>
      simp only [List.map_cons, List.flatten_cons, Nat.zero_mul, Nat.zero_add]
      rw [List.getElem?_append_left (by simpa using hj)]
      simp [List.getElem?_eq_getElem hj]
    | succ i =>
      simp only [List.map_cons, List.flatten_cons]
      rw [List.getElem?_append_right (by simp [Nat.succ_mul]; omega)]
      have harith : (i + 1) * hs.length + j - (hs.map (f t)).length =
          i * hs.length + j := by
        simp only [List.length_map, Nat.succ_mul]
        omega
      rw [harith]
      exact ih i (by simpa using hi)

/-- A member of the nested loop output comes from some outer and inner
element. -/
lemma mem_flatten_map_map {α β γ : Type} {ts : List α} {hs : List β}
    {f : α → β → γ} {x : γ}
    (hx : x ∈ (ts.map (fun t => hs.map (f t))).flatten) :
    ∃ t ∈ ts, ∃ h ∈ hs, x = f t h := by
  rw [List.mem_flatten] at hx
  obtain ⟨l, hl, hxl⟩ := hx
  rw [List.mem_map] at hl
  obtain ⟨t, ht, rfl⟩ := hl
  rw [List.mem_map] at hxl
  obtain ⟨h, hh, rfl⟩ := hxl
  exact ⟨t, ht, h, hh, rfl⟩

/-- The `Triggered` notification never occurs among the distribution's
`TokensSent` notifications. -/
lemma triggered_notMem_distributionEvents (s : LostKeyState)
    (alw : Address → Nat) :
    Event.Triggered ∉ distributionEvents s alw := by
  intro hmem
  obtain ⟨t, _, h, _, heq⟩ := mem_flatten_map_map hmem
  exact Event.noConfusion heq

/-- What a triggering `check` must produce: the `Distributed` state, an event
log of exactly one `Triggered` (at the head) followed by one `TokensSent` per
(asset, heir) pair in nested order — outer loop over watched assets in
registration order, inner loop over heirs in configuration order — each
carrying asset, recipient, percent, and amount `⌊allowance * percent / 100⌋`,
together with one `transferFrom` call of exactly that amount per pair, in the
same order. -/
def CheckTriggerSpec (s : LostKeyState) (alw : Address → Nat)
    (currentTime : Nat) : Prop :=
  ∃ ev tr,
    check s alw currentTime =
      .ok ({ s with lifecycle := Lifecycle.Distributed }, ev, tr) ∧
    ev.count Event.Triggered = 1 ∧
    ev[0]? = some Event.Triggered ∧
    ev.length = s.tokenAddresses.length * s.percents.length + 1 ∧
    tr.length = s.tokenAddresses.length * s.percents.length ∧
    ∀ i j, (hi : i < s.tokenAddresses.length) → (hj : j < s.percents.length) →
      ev[i * s.percents.length + j + 1]? =
        some (Event.TokensSent s.tokenAddresses[i] s.percents[j].recipient
          s.percents[j].percent
          (alw s.tokenAddresses[i] * s.percents[j].percent / 100)) ∧
      tr[i * s.percents.length + j]? =
        some (Transfer.mk s.tokenAddresses[i] s.percents[j].recipient
          (alw s.tokenAddresses[i] * s.percents[j].percent / 100))

/-- Any `Active` instance whose inactivity period has elapsed triggers as
described by `CheckTriggerSpec`. -/
lemma checkTriggerSpec_of_elapsed (s : LostKeyState) (alw : Address → Nat)
    (currentTime : Nat) (hAct : s.lifecycle = Lifecycle.Active)
    (hElapsed : s.noActivityPeriod ≤ currentTime - s.lastActiveTs) :
    CheckTriggerSpec s alw currentTime := by
  refine ⟨Event.Triggered :: distributionEvents s alw,
    distributionTransfers s alw, ?_, ?_, ?_, ?_, ?_, ?_⟩
  · rw [check, if_neg (by simp [hAct]), if_neg (by omega)]
  · rw [List.count_cons_self,
      List.count_eq_zero.mpr (triggered_notMem_distributionEvents s alw)]
  · simp
  · simp only [List.length_cons, distributionEvents]
    rw [length_flatten_map_map]
  · simp only [distributionTransfers]
    rw [length_flatten_map_map]
  · intro i j hi hj
    constructor
    · rw [show i * s.percents.length + j + 1 = (i * s.percents.length + j) + 1
        from rfl, List.getElem?_cons_succ, distributionEvents,
        getElem?_flatten_map_map _ _ _ i j hi hj, payout]
    · rw [distributionTransfers,
        getElem?_flatten_map_map _ _ _ i j hi hj, payout]

/-- `check` fails with `InvalidState` whenever the lifecycle is not
`Active`. -/
lemma check_error_of_not_active (s : LostKeyState) (alw : Address → Nat)
    (currentTime : Nat) (h : s.lifecycle ≠ Lifecycle.Active) :
    check s alw currentTime = .error Err.InvalidState := by
  rw [check, if_pos h]

/-- `check` is a successful no-op while the inactivity period has not
elapsed. -/
lemma check_noop_of_lt (s : LostKeyState) (alw : Address → Nat)
    (currentTime : Nat) (hAct : s.lifecycle = Lifecycle.Active)
    (hlt : currentTime - s.lastActiveTs < s.noActivityPeriod) :
    check s alw currentTime = .ok (s, [], []) := by
  rw [check, if_neg (by simp [hAct]), if_pos hlt]

/-- C2: once `lifecycle = Distributed` (after a successful trigger), every
subsequent `check` call — any caller-supplied allowance observation, any
later time — fails with `InvalidState` and emits no events: the trigger
executes at most once per instance lifetime. -/
theorem check_after_distributed_fails (s : LostKeyState) (alw : Address → Nat)
    (currentTime : Nat) (hDist : s.lifecycle = Lifecycle.Distributed) :
    check s alw currentTime = .error Err.InvalidState :=
  check_error_of_not_active s alw currentTime (by rw [hDist]; intro h; cases h)

/-- Witness for C2 at the example instance after a trigger. -/
theorem check_after_distributed_fails_witness :
    exDistributed.lifecycle = Lifecycle.Distributed ∧
    check exDistributed exAlw 99999 = .error Err.InvalidState :=
  ⟨rfl, check_after_distributed_fails exDistributed exAlw 99999 rfl⟩

/-- C3: while `Active`, a `check` made before the inactivity period has
elapsed succeeds, changes no state, emits no `Triggered` notification (it
emits nothing), and performs no distribution. -/
theorem check_before_period_noop (s : LostKeyState) (alw : Address → Nat)
    (currentTime : Nat) (hAct : s.lifecycle = Lifecycle.Active)
    (hlt : currentTime - s.lastActiveTs < s.noActivityPeriod) :
    check s alw currentTime = .ok (s, [], []) :=
  check_noop_of_lt s alw currentTime hAct hlt

/-- Witness for C3 at the example instance, 500 seconds into a 1000-second
period. -/
theorem check_before_period_noop_witness :
    exWatched.lifecycle = Lifecycle.Active ∧
    500 - exWatched.lastActiveTs < exWatched.noActivityPeriod ∧
    check exWatched exAlw 500 = .ok (exWatched, [], []) :=
  ⟨rfl, by decide, check_before_period_noop exWatched exAlw 500 rfl (by decide)⟩

/-- C6: a caller other than the target user can never register an asset:
both the single and the batch variant fail with `Unauthorized`, whatever the
supplied addresses and whatever the lifecycle, and the failure leaves
`watchedAssets` unchanged (no state is produced). -/
theorem addAsset_nontarget_unauthorized (s : LostKeyState) (caller : Address)
    (hne : caller ≠ s.targetUser) :
    (∀ a, addTokenAddress s caller a = .error Err.Unauthorized) ∧
    (∀ l, addTokenAddresses s caller l = .error Err.Unauthorized) :=
  ⟨fun a => by rw [addTokenAddress, if_pos hne],
   fun l => by rw [addTokenAddresses, if_pos hne]⟩

/-- Witness for C6: caller `99` is not the example target user `1`. -/
theorem addAsset_nontarget_unauthorized_witness :
    (99 : Address) ≠ exState.targetUser ∧
    ((∀ a, addTokenAddress exState 99 a = .error Err.Unauthorized) ∧
     (∀ l, addTokenAddresses exState 99 l = .error Err.Unauthorized)) :=
  ⟨by decide, addAsset_nontarget_unauthorized exState 99 (by decide)⟩

/-- C8: a plain value transfer hitting the fallback fails unconditionally,
for every instance state, every sender and every amount, leaving the state
unchanged (no successor state is produced). -/
theorem fallback_always_reverts (s : LostKeyState) (sender : Address)
    (amount : Nat) :
    fallbackTransfer s sender amount = .error Err.RejectedValueTransfer :=
  rfl

/-- C9: an elapsed inactivity period does not by itself disable the target
user's operations — while the lifecycle is still `Active`, `imAvailable`
still succeeds, resets `lastActiveTs` to the call time and emits the
liveness acknowledgement, even at a time with
`currentTime - lastActiveTs ≥ noActivityPeriod`. -/
theorem imAvailable_after_elapsed (s : LostKeyState) (t : Nat)
    (hAct : s.lifecycle = Lifecycle.Active)
    (hElapsed : s.noActivityPeriod ≤ t - s.lastActiveTs) :
    imAvailable s s.targetUser t =
      .ok ({ s with lastActiveTs := t }, [Event.Notified]) := by
  rw [imAvailable, if_neg (by simp), if_neg (by simp [hAct])]

/-- Witness for C9: the example instance pinged at time 1500, after its
1000-second period has elapsed. -/
theorem imAvailable_after_elapsed_witness :
    exWatched.lifecycle = Lifecycle.Active ∧
    exWatched.noActivityPeriod ≤ 1500 - exWatched.lastActiveTs ∧
    imAvailable exWatched exWatched.targetUser 1500 =
      .ok ({ exWatched with lastActiveTs := 1500 }, [Event.Notified]) :=
  ⟨rfl, by decide, imAvailable_after_elapsed exWatched 1500 rfl (by decide)⟩

/-- C1: whenever `check` is called on an `Active` instance whose inactivity
period has elapsed, it triggers: `lifecycle` becomes `Distributed`, the log
holds exactly one `Triggered` notification at its head followed by exactly
one `TokensSent` per (asset, heir) pair — assets in registration order, heirs
in configuration order — each carrying asset, recipient, percent, and amount
`⌊observedAllowance * percent / 100⌋` (remainder truncated, not
redistributed), and exactly that amount is pulled to the heir by the matching
`transferFrom` call. -/
theorem check_triggers_distribution (s : LostKeyState) (alw : Address → Nat)
    (currentTime : Nat) (hAct : s.lifecycle = Lifecycle.Active)
    (hElapsed : s.noActivityPeriod ≤ currentTime - s.lastActiveTs) :
    CheckTriggerSpec s alw currentTime :=
  checkTriggerSpec_of_elapsed s alw currentTime hAct hElapsed

/-- Witness for C1: the example instance (heirs `(11,30)`, `(12,70)`, two
assets, allowance 1000) checked at time 1500. -/
theorem check_triggers_distribution_witness :
    exWatched.lifecycle = Lifecycle.Active ∧
    exWatched.noActivityPeriod ≤ 1500 - exWatched.lastActiveTs ∧
    CheckTriggerSpec exWatched exAlw 1500 :=
  ⟨rfl, by decide, check_triggers_distribution exWatched exAlw 1500 rfl (by decide)⟩

/-- What a ping must achieve: success with the timestamp reset and the
`Notified` acknowledgement, after which `check` is a no-op until a further
full inactivity period of silence has passed, and triggers once it has. -/
def RearmSpec (s : LostKeyState) (t : Nat) : Prop :=
  imAvailable s s.targetUser t =
    .ok ({ s with lastActiveTs := t }, [Event.Notified]) ∧
  (∀ alw t2, t2 - t < s.noActivityPeriod →
    check { s with lastActiveTs := t } alw t2 =
      .ok ({ s with lastActiveTs := t }, [], [])) ∧
  (∀ alw, check { s with lastActiveTs := t } alw t =
    .ok ({ s with lastActiveTs := t }, [], [])) ∧
  (∀ alw t2, s.noActivityPeriod ≤ t2 - t →
    CheckTriggerSpec { s with lastActiveTs := t } alw t2)

/-- C5: while `Active`, `imAvailable` by the target user sets `lastActiveTs`
to the call time, emits the liveness acknowledgement, and re-arms the
inactivity window: an immediate `check` succeeds as a no-op without
triggering, and only after a further full `noActivityPeriod` of silence does
`check` trigger. -/
theorem imAvailable_rearms (s : LostKeyState) (t : Nat)
    (hAct : s.lifecycle = Lifecycle.Active)
    (hpos : 0 < s.noActivityPeriod) :
    RearmSpec s t := by
  refine ⟨?_, ?_, ?_, ?_⟩
  · rw [imAvailable, if_neg (by simp), if_neg (by simp [hAct])]
  · intro alw t2 hlt
    exact check_noop_of_lt _ alw t2 hAct hlt
  · intro alw
    exact check_noop_of_lt _ alw t hAct (by simpa using hpos)
  · intro alw t2 hle
    exact checkTriggerSpec_of_elapsed _ alw t2 hAct hle

/-- Witness for C5: the example instance pinged at time 2000. -/
theorem imAvailable_rearms_witness :
    exWatched.lifecycle = Lifecycle.Active ∧
    0 < exWatched.noActivityPeriod ∧
    RearmSpec exWatched 2000 :=
  ⟨rfl, by decide, imAvailable_rearms exWatched 2000 rfl (by decide)⟩

/-- C10: a triggering `check` succeeds even when the observed allowance of
every watched asset is zero — the distribution loop completes with
zero-amount payouts (every `TokensSent` notification and every `transferFrom`
call carries amount 0) rather than failing, and the transition to
`Distributed` still commits. -/
theorem check_zero_allowance_succeeds (s : LostKeyState) (alw : Address → Nat)
    (currentTime : Nat) (hAct : s.lifecycle = Lifecycle.Active)
    (hElapsed : s.noActivityPeriod ≤ currentTime - s.lastActiveTs)
    (hz : ∀ tok ∈ s.tokenAddresses, alw tok = 0) :
    ∃ ev tr,
      check s alw currentTime =
        .ok ({ s with lifecycle := Lifecycle.Distributed }, ev, tr) ∧
      (∀ e ∈ ev, ∀ tok r p a, e = Event.TokensSent tok r p a → a = 0) ∧
      (∀ x ∈ tr, x.amount = 0) := by
  refine ⟨Event.Triggered :: distributionEvents s alw,
    distributionTransfers s alw, ?_, ?_, ?_⟩
  · rw [check, if_neg (by simp [hAct]), if_neg (by omega)]
  · intro e he tok r p a hea
    rcases List.mem_cons.mp he with h0 | h1
    · rw [h0] at hea
      exact Event.noConfusion hea
    · obtain ⟨t2, ht2, h, _, rfl⟩ := mem_flatten_map_map h1
      injection hea with e1 e2 e3 e4
      rw [← e4, payout, hz t2 ht2]
      simp
  · intro x hx
    obtain ⟨t2, ht2, h, _, rfl⟩ := mem_flatten_map_map hx
    simp [payout, hz t2 ht2]

/-- Witness for C10: the example instance checked at time 1500 with every
allowance zero. -/
theorem check_zero_allowance_succeeds_witness :
    exWatched.lifecycle = Lifecycle.Active ∧
    exWatched.noActivityPeriod ≤ 1500 - exWatched.lastActiveTs ∧
    (∀ tok ∈ exWatched.tokenAddresses, exAlwZero tok = 0) ∧
    (∃ ev tr,
      check exWatched exAlwZero 1500 =
        .ok ({ exWatched with lifecycle := Lifecycle.Distributed }, ev, tr) ∧
      (∀ e ∈ ev, ∀ tok r p a, e = Event.TokensSent tok r p a → a = 0) ∧
      (∀ x ∈ tr, x.amount = 0)) :=
  ⟨rfl, by decide, by decide,
   check_zero_allowance_succeeds exWatched exAlwZero 1500 rfl (by decide)
     (by decide)⟩

/-- Folding `addTokenAddress` over a list from an `Active` state appends all
addresses in order and concatenates the per-address `TokenAdded`
notifications. -/
lemma addTokenAddressesOneByOne_active (caller : Address) (l : List Address) :
    ∀ s : LostKeyState, caller = s.targetUser →
      s.lifecycle = Lifecycle.Active →
      addTokenAddressesOneByOne caller s l =
        .ok ({ s with tokenAddresses := s.tokenAddresses ++ l },
             l.map Event.TokenAdded) := by
  induction l with
  | nil =>
    intro s _ _
    simp [addTokenAddressesOneByOne]
  | cons token rest ih =>
    intro s hc hAct
    have h1 := ih { s with tokenAddresses := s.tokenAddresses ++ [token] }
      hc hAct
    rw [hc] at h1 ⊢
    dsimp only at h1
    rw [hAct] at h1
    simp only [addTokenAddressesOneByOne, addTokenAddress, ne_eq,
      not_true_eq_false, if_false, hAct, ite_false]
    rw [h1]
    simp [List.append_assoc]

/-- C7: a successful batch `addTokenAddresses` by the target user appends the
addresses to the watched set in input order and emits exactly one
`TokenAdded` notification per address in input order, and it is observably
equivalent — same final state, same notifications in the same order — to
calling `addTokenAddress` once per element in sequence. -/
theorem addTokenAddresses_batch_spec (s : LostKeyState) (l : List Address)
    (hAct : s.lifecycle = Lifecycle.Active) :
    addTokenAddresses s s.targetUser l =
      .ok ({ s with tokenAddresses := s.tokenAddresses ++ l },
           l.map Event.TokenAdded) ∧
    addTokenAddresses s s.targetUser l =
      addTokenAddressesOneByOne s.targetUser s l := by
  have hb : addTokenAddresses s s.targetUser l =
      .ok ({ s with tokenAddresses := s.tokenAddresses ++ l },
           l.map Event.TokenAdded) := by
    rw [addTokenAddresses, if_neg (by simp), if_neg (by simp [hAct])]
  exact ⟨hb,
    hb.trans (addTokenAddressesOneByOne_active s.targetUser l s rfl hAct).symm⟩

/-- Witness for C7: the example instance with two fresh asset addresses. -/
theorem addTokenAddresses_batch_spec_witness :
    exState.lifecycle = Lifecycle.Active ∧
    (addTokenAddresses exState exState.targetUser [21, 22] =
      .ok ({ exState with tokenAddresses := exState.tokenAddresses ++ [21, 22] },
           [21, 22].map Event.TokenAdded) ∧
     addTokenAddresses exState exState.targetUser [21, 22] =
       addTokenAddressesOneByOne exState.targetUser exState [21, 22]) :=
  ⟨rfl, addTokenAddresses_batch_spec exState [21, 22] rfl⟩

/-- What a voluntary kill must achieve: the `Killed` transition with the
user-tagged notification, after which every operation fails — `check` with
`InvalidState` for every caller, and the target-user-only operations with
`InvalidState` for the target user and with `Unauthorized` (the caller guard
firing first) for anyone else. -/
def KillTerminalSpec (s : LostKeyState) : Prop :=
  kill s s.targetUser =
    .ok ({ s with lifecycle := Lifecycle.Killed }, [Event.Killed true]) ∧
  (∀ c a, addTokenAddress { s with lifecycle := Lifecycle.Killed } c a =
    .error (if c = s.targetUser then Err.InvalidState else Err.Unauthorized)) ∧
  (∀ c l, addTokenAddresses { s with lifecycle := Lifecycle.Killed } c l =
    .error (if c = s.targetUser then Err.InvalidState else Err.Unauthorized)) ∧
  (∀ c t2, imAvailable { s with lifecycle := Lifecycle.Killed } c t2 =
    .error (if c = s.targetUser then Err.InvalidState else Err.Unauthorized)) ∧
  (∀ alw t2, check { s with lifecycle := Lifecycle.Killed } alw t2 =
    .error Err.InvalidState)

/-- C4 (amended): `kill` by the target user while `Active` transitions the
lifecycle to `Killed` and emits a `Killed` notification with `byUser = true`;
afterwards every `addTokenAddress`, `addTokenAddresses`, `imAvailable` and
`check` call fails, for all callers and all later times — `check` with
`InvalidState` for every caller, the target-user-only operations with
`InvalidState` when called by the target user and with `Unauthorized` when
called by anyone else. -/
theorem kill_terminal (s : LostKeyState)
    (hAct : s.lifecycle = Lifecycle.Active) : KillTerminalSpec s := by
  refine ⟨?_, ?_, ?_, ?_, ?_⟩
  · rw [kill, if_neg (by simp), if_neg (by simp [hAct])]
  · intro c a
    by_cases hc : c = s.targetUser <;> simp [addTokenAddress, hc]
  · intro c l
    by_cases hc : c = s.targetUser <;> simp [addTokenAddresses, hc]
  · intro c t2
    by_cases hc : c = s.targetUser <;> simp [imAvailable, hc]
  · intro alw t2
    exact check_error_of_not_active _ alw t2 (by intro h; cases h)

/-- Witness for C4 at the example instance. -/
theorem kill_terminal_witness :
    exState.lifecycle = Lifecycle.Active ∧ KillTerminalSpec exState :=
  ⟨rfl, kill_terminal exState rfl⟩

/-- Counterexample for C4 as stated: after a kill of the example instance,
an `addTokenAddress` call by the non-target caller `99` fails with
`Unauthorized`, not with `InvalidState` — so "every addAsset call fails with
InvalidState, for all callers" does not hold. -/
theorem kill_nontarget_caller_cex :
    kill exState exState.targetUser = .ok (exKilled, [Event.Killed true]) ∧
    addTokenAddress exKilled 99 21 = .error Err.Unauthorized ∧
    Err.Unauthorized ≠ Err.InvalidState :=
  ⟨rfl, rfl, by decide⟩

end LostKey
